import Mathlib

/-!
# Verification of the recursive directory / tree crawler

Shallow embedding, in Lean 4, of the four Python source files of the
repository:

* `directory_crawler.py` — link-based directory-listing crawler
  (`DirectoryCrawler.is_valid_link`, `extract_links`, `crawl_url`);
* `directory_crawler_selenium.py` — Selenium variant of the link-based
  crawler (`SeleniumDirectoryCrawler.crawl_url`);
* `tree_crawler_selenium.py` — click-based tree crawler
  (`TreeCrawlerSelenium.wait_for_click_tree`, `crawl_tree`, `main`);
* `search_word.py` — keyword classifier (`generate_regex`,
  `include_nec_search_word`, `include_search_word`,
  `is_include_search_word`).

Strings are modelled as `List Char` (`PyStr`).  Stateful code is modelled
by explicit state passing; the recursive traversals are modelled as
fuel-indexed interpreters (`none` = the computation did not finish within
`fuel` steps), so that divergence and termination are both expressible and
every definition evaluates by `decide`.  External effects (HTTP fetches,
the rendered widget, word-list files) are parameters of the model.
-/

/-- Python strings, modelled as lists of characters. -/
abbrev PyStr := List Char

/-- Python's `needle in hay` substring test on strings. -/
def pyInStr (needle hay : PyStr) : Bool :=
  (List.range (hay.length + 1)).any (fun i => needle.isPrefixOf (hay.drop i))

namespace UrlModel

/-!
## URLs

A parsed URL, as produced by `urllib.parse.urlparse`: scheme, authority
(`netloc`), path and query.  Fragments are dropped at parse time (none of
the crawler's decisions reads them).  `urljoin` below models
`urllib.parse.urljoin` on this fragment: absolute references,
scheme-relative (`//host/...`) references, absolute paths and relative
paths, including removal of `.` and `..` segments.
-/

structure Url where
  scheme : PyStr
  netloc : PyStr
  path   : PyStr
  query  : PyStr
deriving DecidableEq, Repr

/-- Split a list at the first occurrence of `sep`: `(before, after)`;
`after = []` when `sep` does not occur. -/
def splitFirst (sep : Char) : PyStr → PyStr × PyStr
  | [] => ([], [])
  | c :: rest =>
    if c = sep then ([], rest)
    else
      let (b, a) := splitFirst sep rest
      (c :: b, a)

/-- Split a path into `/`-separated segments (the leading empty segment of
an absolute path included). -/
def pathSegments : PyStr → List PyStr
  | [] => [[]]
  | c :: rest =>
    let segs := pathSegments rest
    if c = '/' then [] :: segs
    else
      match segs with
      | [] => [[c]]
      | s :: ss => (c :: s) :: ss

/-- Rebuild a path from its segments. -/
def joinSegments : List PyStr → PyStr
  | [] => []
  | [s] => s
  | s :: ss => s ++ '/' :: joinSegments ss

/-- Removal of `.` and `..` path segments, as `urllib.parse.urljoin`
performs on the merged path (a `..` pops the preceding segment). -/
def removeDotSegments (segs : List PyStr) : List PyStr :=
  go segs []
where
  go : List PyStr → List PyStr → List PyStr
    | [], acc => acc.reverse
    | s :: rest, acc =>
      if s = ['.'] then go rest acc
      else if s = ['.', '.'] then
        match acc with
        | [] => go rest []
        | _ :: acc' => go rest acc'
      else go rest (s :: acc)

/-- Strip the fragment part (`#...`) of a reference. -/
def stripFragment (s : PyStr) : PyStr := (splitFirst '#' s).1

/-- Parse an absolute reference `scheme://netloc/path?query`, given the
already isolated scheme. -/
def parseAfterScheme (scheme rest : PyStr) : Url :=
  let (netloc, tail) := splitFirst '/' rest
  if tail = [] ∧ ¬ pyInStr ['/'] rest then
    -- no path at all: maybe `host?query`
    let (host, q) := splitFirst '?' netloc
    { scheme := scheme, netloc := host, path := [], query := q }
  else
    let (p, q) := splitFirst '?' tail
    { scheme := scheme, netloc := netloc, path := '/' :: p, query := q }

/-- The merge step of `urljoin` for relative paths: all of the base path up
to and including its last `/`, followed by the relative path. -/
def mergePath (basePath rel : PyStr) : PyStr :=
  let keep := (basePath.reverse.dropWhile (fun c => c ≠ '/')).reverse
  keep ++ rel

/-- Does the path (a `/`-separated reference, query already removed) end
with the separator once dot segments are resolved?  Used only to state the
spec's classification rule. -/
def normalizePath (p : PyStr) : PyStr :=
  joinSegments (([] : PyStr) :: removeDotSegments (pathSegments p).tail)

/-- Model of `urllib.parse.urljoin(base, href)` followed by
`urllib.parse.urlparse` of the result, on the fragment of URL syntax the
crawler meets: absolute `http(s)://` references, scheme-relative `//`
references, absolute and relative path references, with query split at the
first `?` and fragment dropped. -/
def urljoin (base : Url) (href : PyStr) : Url :=
  let href := stripFragment href
  if "http://".data.isPrefixOf href then
    parseAfterScheme "http".data (href.drop 7)
  else if "https://".data.isPrefixOf href then
    parseAfterScheme "https".data (href.drop 8)
  else if "//".data.isPrefixOf href then
    parseAfterScheme base.scheme (href.drop 2)
  else
    let (rawPath, q) := splitFirst '?' href
    if rawPath = [] then
      if q = [] then base else { base with query := q }
    else
      let merged :=
        if rawPath.headI = '/' then rawPath
        else mergePath base.path rawPath
      { base with path := normalizePath merged, query := q }

end UrlModel

namespace DirectoryCrawler

/-!
## `directory_crawler.py` — link-based crawler

The HTML parsing (`BeautifulSoup`) and the HTTP session are external: a
fetched page is modelled as its list of `<a href=...>` anchors in document
order, and the network as a partial function `web : Url → Option (List
Anchor)` (`none` = the request raised).  `crawl_url`'s recursion is
modelled by the fuel-indexed `crawl_list`, one cons per `crawl_url`
invocation, mirroring the source line by line.
-/

open UrlModel

/-- An `<a>` element with an `href` attribute: raw `href` text and the
anchor's text content (`link.get_text()`). -/
structure Anchor where
  href : PyStr
  text : PyStr
deriving DecidableEq, Repr

/-- One entry of the `directories` / `files` lists built by
`extract_links`: `{"url": absolute_url, "name": link_text, "href": href}`. -/
structure Item where
  url  : Url
  name : PyStr
  href : PyStr
deriving DecidableEq, Repr

/-- Python `str.isspace` characters stripped by `str.strip()` (ASCII
whitespace fragment). -/
def pyIsSpace (c : Char) : Bool :=
  c = ' ' ∨ c = '\t' ∨ c = '\n' ∨ c = '\r' ∨ c = '\x0b' ∨ c = '\x0c'

/-- Python `str.strip()`. -/
def pyStrip (s : PyStr) : PyStr :=
  ((s.dropWhile pyIsSpace).reverse.dropWhile pyIsSpace).reverse

/-- Model of `DirectoryCrawler.is_valid_link` (`directory_crawler.py` lines 77-99):
skip the self/parent pseudo-entries `../ ./ .. .`, resolve `href` against
the page URL, and accept exactly when the resolved authority equals the
page's authority. -/
def is_valid_link (href : PyStr) (base_url : Url) : Bool :=
  if href = "../".data ∨ href = "./".data ∨ href = "..".data ∨ href = ".".data then
    false
  else
    (urljoin base_url href).netloc = base_url.netloc

/-- Model of `DirectoryCrawler.extract_links` (lines 101-133): partition the page's
anchors, in document order, into directories (`href` ends with `/`) and
files (all others), dropping invalid links. -/
def extract_links (anchors : List Anchor) (base_url : Url) : List Item × List Item :=
  match anchors with
  | [] => ([], [])
  | link :: rest =>
    let prev := extract_links rest base_url
    let link_text := pyStrip link.text
    if ¬ is_valid_link link.href base_url then prev
    else
      let absolute_url := urljoin base_url link.href
      if link.href.getLast? = some '/' then
        (⟨absolute_url, link_text, link.href⟩ :: prev.1, prev.2)
      else
        (prev.1, ⟨absolute_url, link_text, link.href⟩ :: prev.2)

/-- A line of `items.log`, with two ghost fields: `page` is the listing
page the node was found on and `depth` that page's recursion depth. -/
inductive LEvent where
  | dir  (page : Url) (url : Url) (name : PyStr) (depth : Nat)
  | file (page : Url) (url : Url) (name : PyStr) (depth : Nat)
deriving DecidableEq, Repr

/-- The URL recorded in a log line. -/
def LEvent.url : LEvent → Url
  | .dir _ u _ _ => u
  | .file _ u _ _ => u

/-- The listing page a log line's node was found on (ghost). -/
def LEvent.page : LEvent → Url
  | .dir p _ _ _ => p
  | .file p _ _ _ => p

/-- The recursion depth of the page a log line was emitted from (ghost). -/
def LEvent.depth : LEvent → Nat
  | .dir _ _ _ d => d
  | .file _ _ _ d => d

/-- The crawler's mutable state: `visited_urls`, the statistics counters,
the `items.log` lines, and a ghost list `fetched` of the URLs actually
requested from the network, in request order. -/
structure CrawlState where
  visited     : List Url
  fetched     : List Url
  dirs_found  : Nat
  files_found : Nat
  errors_count : Nat
  events      : List LEvent
deriving DecidableEq, Repr

/-- The state of a freshly constructed `DirectoryCrawler`. -/
def initState : CrawlState :=
  { visited := [], fetched := [], dirs_found := 0, files_found := 0,
    errors_count := 0, events := [] }

/-- Model of `DirectoryCrawler.crawl_url` (lines 135-193), fuel-indexed.  The list
argument is the pending sibling URLs of one `for dir_info in directories`
loop; each cons case plays one `crawl_url(url, current_depth)` call:
depth check, visited check, insertion into `visited_urls` before the
request, request (`none` = `RequestException`, caught and counted),
logging of the extracted directories then files, recursion into the
directories at `current_depth + 1`, then the remaining siblings.  Fuel
`none` means the computation did not finish within `fuel` steps. -/
def crawl_list (web : Url → Option (List Anchor)) (max_depth : Nat) :
    Nat → List Url → Nat → CrawlState → Option CrawlState
  | 0, _, _, _ => none
  | _ + 1, [], _, st => some st
  | fuel + 1, url :: rest, current_depth, st =>
    Option.bind
      (if max_depth ≤ current_depth then some st
       else if url ∈ st.visited then some st
       else
         let st0 := { st with visited := url :: st.visited,
                              fetched := st.fetched ++ [url] }
         match web url with
         | none => some { st0 with errors_count := st0.errors_count + 1 }
         | some anchors =>
           let dfs := extract_links anchors url
           let st1 := dfs.1.foldl (fun s d =>
             { s with events := s.events ++ [.dir url d.url d.name current_depth],
                      dirs_found := s.dirs_found + 1 }) st0
           let st2 := dfs.2.foldl (fun s f =>
             { s with events := s.events ++ [.file url f.url f.name current_depth],
                      files_found := s.files_found + 1 }) st1
           crawl_list web max_depth fuel (dfs.1.map (·.url)) (current_depth + 1) st2)
      (fun stepped => crawl_list web max_depth fuel rest current_depth stepped)

/-- Model of `DirectoryCrawler.start_crawling` → `crawl_url(base_url)` at depth 0 on
a fresh crawler. -/
def start_crawling (web : Url → Option (List Anchor)) (max_depth fuel : Nat)
    (base_url : Url) : Option CrawlState :=
  crawl_list web max_depth fuel [base_url] 0 initState

end DirectoryCrawler

namespace SearchWord

/-!
## `search_word.py` — keyword classifier

The word lists (`search_words.txt`, `search_nec_words.txt`,
`exclusion_words.txt`) are external data files, read at import time; they
appear here as parameters.  Regular expressions are modelled on the exact
pattern shapes the source uses: `generate_regex` produces a concatenation
of four-character classes, the hard-coded identity patterns are
concatenations of character classes with an optional `.*?` gap (`.` not
matching a newline, as in `re`), and `re.finditer` scans left to right,
non-overlapping.
-/

/-- Python `str.lower()` on the character classes the word lists use
(ASCII and fullwidth letters; other characters are uncased). -/
def pyLower (c : Char) : Char :=
  if 'A' ≤ c ∧ c ≤ 'Z' then Char.ofNat (c.toNat + 32)
  else if 0xFF21 ≤ c.toNat ∧ c.toNat ≤ 0xFF3A then Char.ofNat (c.toNat + 32)
  else c

/-- Python `str.upper()` on the same fragment. -/
def pyUpper (c : Char) : Char :=
  if 'a' ≤ c ∧ c ≤ 'z' then Char.ofNat (c.toNat - 32)
  else if 0xFF41 ≤ c.toNat ∧ c.toNat ≤ 0xFF5A then Char.ofNat (c.toNat - 32)
  else c

/-- Python `str.isalpha()` on the character ranges occurring in the word
lists: ASCII letters, hiragana, katakana (incl. halfwidth), CJK
ideographs, fullwidth latin letters. -/
def pyIsAlpha (c : Char) : Bool :=
  ('A' ≤ c ∧ c ≤ 'Z') ∨ ('a' ≤ c ∧ c ≤ 'z') ∨
  (0x3041 ≤ c.toNat ∧ c.toNat ≤ 0x3096) ∨
  (0x30A1 ≤ c.toNat ∧ c.toNat ≤ 0x30FA) ∨
  (0x4E00 ≤ c.toNat ∧ c.toNat ≤ 0x9FFF) ∨
  (0xFF21 ≤ c.toNat ∧ c.toNat ≤ 0xFF3A) ∨
  (0xFF41 ≤ c.toNat ∧ c.toNat ≤ 0xFF5A) ∨
  (0xFF66 ≤ c.toNat ∧ c.toNat ≤ 0xFF9F)

/-- The four-character class `generate_regex` builds for one letter:
`[{lower}{upper}{chr(ord(lower)+0xFEE0)}{chr(ord(upper)+0xFEE0)}]`. -/
def genClass (c : Char) : List Char :=
  [pyLower c, pyUpper c,
   Char.ofNat ((pyLower c).toNat + 0xFEE0), Char.ofNat ((pyUpper c).toNat + 0xFEE0)]

/-- Model of `generate_regex` (`search_word.py` lines 70-77): one class per
alphabetic character of the word, concatenated.  A regex of this shape is
modelled as its list of character classes. -/
def generate_regex (word : PyStr) : List (List Char) :=
  (word.filter pyIsAlpha).map genClass

/-- Does the class concatenation match a prefix of `s`? -/
def matchesPrefix : List (List Char) → PyStr → Bool
  | [], _ => true
  | _ :: _, [] => false
  | cl :: cls, c :: s => cl.contains c && matchesPrefix cls s

/-- Model of `re.search` of a pure class-concatenation pattern: a match starting at
some position of `s`. -/
def reSearch (cls : List (List Char)) (s : PyStr) : Bool :=
  (List.range (s.length + 1)).any (fun i => matchesPrefix cls (s.drop i))

/-- Left-to-right, non-overlapping scan of `re.finditer` for a (nonempty)
class-concatenation pattern: `(start index, matched text)` pairs.  `skip`
counts positions still covered by the previous match. -/
def finditerGo (cls : List (List Char)) : PyStr → Nat → Nat → List (Nat × PyStr)
  | [], _, _ => []
  | _ :: rest, i, skip + 1 => finditerGo cls rest (i + 1) skip
  | c :: rest, i, 0 =>
    if matchesPrefix cls (c :: rest) then
      (i, (c :: rest).take cls.length) :: finditerGo cls rest (i + 1) (cls.length - 1)
    else
      finditerGo cls rest (i + 1) 0

/-- Model of `re.finditer(pattern, line)` for a nonempty class-concatenation
pattern. -/
def finditer (cls : List (List Char)) (s : PyStr) : List (Nat × PyStr) :=
  finditerGo cls s 0 0

/-- After a `.*?` gap: does `post` match at the current position or after
consuming any run of non-newline characters (`.` does not match `\n`)? -/
def gapThenMatch (post : List (List Char)) : PyStr → Bool
  | [] => matchesPrefix post []
  | c :: rest => matchesPrefix post (c :: rest) || (decide (c ≠ '\n') && gapThenMatch post rest)

/-- Model of `re.search` of a `pre.*?post` pattern built from two class
concatenations. -/
def searchGapPattern (pre post : List (List Char)) (s : PyStr) : Bool :=
  (List.range (s.length + 1)).any (fun i =>
    matchesPrefix pre (s.drop i) && gapThenMatch post ((s.drop i).drop pre.length))

/-- The classes of `[nNｎＮ][iIｉＩ][pPｐＰ][pPｐＰ][oOｏＯ][nNｎＮ]` (lines
124 and 133). -/
def nipponClasses : List (List Char) :=
  [['n', 'N', 'ｎ', 'Ｎ'], ['i', 'I', 'ｉ', 'Ｉ'], ['p', 'P', 'ｐ', 'Ｐ'],
   ['p', 'P', 'ｐ', 'Ｐ'], ['o', 'O', 'ｏ', 'Ｏ'], ['n', 'N', 'ｎ', 'Ｎ']]

/-- The classes of `[dDｄＤ][eEｅＥ][nNｎＮ][kKｋＫ][iIｉＩ]` (line 124). -/
def denkiClasses : List (List Char) :=
  [['d', 'D', 'ｄ', 'Ｄ'], ['e', 'E', 'ｅ', 'Ｅ'], ['n', 'N', 'ｎ', 'Ｎ'],
   ['k', 'K', 'ｋ', 'Ｋ'], ['i', 'I', 'ｉ', 'Ｉ']]

/-- The classes of `[eEｅＥ][lLｌＬ][eEｅＥ][cCｃＣ][tTｔＴ][rRｒＲ][iIｉＩ][cCｃＣ]`
(line 133). -/
def electricClasses : List (List Char) :=
  [['e', 'E', 'ｅ', 'Ｅ'], ['l', 'L', 'ｌ', 'Ｌ'], ['e', 'E', 'ｅ', 'Ｅ'],
   ['c', 'C', 'ｃ', 'Ｃ'], ['t', 'T', 'ｔ', 'Ｔ'], ['r', 'R', 'ｒ', 'Ｒ'],
   ['i', 'I', 'ｉ', 'Ｉ'], ['c', 'C', 'ｃ', 'Ｃ']]

/-- The classes of `日本` (line 141). -/
def nihonKanji : List (List Char) := [['日'], ['本']]

/-- second half of `(?:日本.*?電気)`. -/
def denkiKanji : List (List Char) := [['電'], ['気']]

/-- The classes of `にほん` (line 148). -/
def nihonHira : List (List Char) := [['に'], ['ほ'], ['ん']]

/-- The classes of `でんき` (lines 148, 157). -/
def denkiHira : List (List Char) := [['で'], ['ん'], ['き']]

/-- The classes of `にっぽん` (line 157). -/
def nipponHira : List (List Char) := [['に'], ['っ'], ['ぽ'], ['ん']]

/-- The classes of `[ﾆニ][ﾎホ][ﾝン]` (line 166); note `[ﾃﾞデ]` is a class of the three
characters halfwidth `ﾃ`, halfwidth voicing mark `ﾞ` and fullwidth `デ`. -/
def nihonKata : List (List Char) := [['ﾆ', 'ニ'], ['ﾎ', 'ホ'], ['ﾝ', 'ン']]

/-- The classes of `[ﾃﾞデ][ﾝン][ｷキ]` (lines 166, 175). -/
def denkiKata : List (List Char) := [['ﾃ', 'ﾞ', 'デ'], ['ﾝ', 'ン'], ['ｷ', 'キ']]

/-- The classes of `[ﾆニ][ｯッ][ﾎホ][ﾝン]` (line 175). -/
def nipponKata : List (List Char) := [['ﾆ', 'ニ'], ['ｯ', 'ッ'], ['ﾎ', 'ホ'], ['ﾝ', 'ン']]

/-- The classes of `(?:日電)` (line 182). -/
def nichidenKanji : List (List Char) := [['日'], ['電']]

/-- The classes of `(?:にちでん)` (line 187). -/
def nichidenHira : List (List Char) := [['に'], ['ち'], ['で'], ['ん']]

/-- The classes of `[ﾆニ][ﾁチ][ﾃﾞデ][ﾝン]` (line 193). -/
def nichidenKata : List (List Char) := [['ﾆ', 'ニ'], ['ﾁ', 'チ'], ['ﾃ', 'ﾞ', 'デ'], ['ﾝ', 'ン']]

/-- Model of `include_nec_search_word` (lines 101-200).  `False` is modelled as
`none`, a hit as `some word`.  For the word `"NEC"` the matches are
enumerated and the word is a hit iff some match's text does not contain a
match of any exclusion word's generated regex; when every match contains
one, the function `return False`s at once.  Every other word is dispatched
by Python's substring test `word in "<variant>"` to the hard-coded variant
pattern of that branch. -/
def include_nec_search_word (search_nec_words exclusion_words : List PyStr)
    (line : PyStr) : Option PyStr :=
  go search_nec_words
where
  go : List PyStr → Option PyStr
  | [] => none
  | word :: rest =>
    if word = "NEC".data then
      match finditer (generate_regex word) line with
      | [] => go rest
      | m :: ms =>
        if (m :: ms).any (fun m =>
            ! exclusion_words.any (fun ex_word => reSearch (generate_regex ex_word) m.2)) then
          some word
        else
          none
    else if pyInStr word "nippondenki".data then
      if searchGapPattern nipponClasses denkiClasses line then some word else go rest
    else if pyInStr word "nipponelectric".data then
      if searchGapPattern nipponClasses electricClasses line then some word else go rest
    else if pyInStr word "日本電気".data then
      if searchGapPattern nihonKanji denkiKanji line then some word else go rest
    else if pyInStr word "にほんでんき".data then
      if searchGapPattern nihonHira denkiHira line then some word else go rest
    else if pyInStr word "にっぽんでんき".data then
      if searchGapPattern nipponHira denkiHira line then some word else go rest
    else if pyInStr word "ニホンデンキ".data then
      if searchGapPattern nihonKata denkiKata line then some word else go rest
    else if pyInStr word "ニッポンデンキ".data then
      if searchGapPattern nipponKata denkiKata line then some word else go rest
    else if pyInStr word "日電".data then
      if reSearch nichidenKanji line then some word else go rest
    else if pyInStr word "にちでん".data then
      if reSearch nichidenHira line then some word else go rest
    else if pyInStr word "ニチデン".data then
      if reSearch nichidenKata line then some word else go rest
    else go rest

/-- Model of `include_search_word` (lines 89-98): first word of the general list
matching the file name, case-insensitively.  `re.search(word, filename,
re.IGNORECASE)` is modelled as case-insensitive substring containment, so
the model covers word lists without regex metacharacters. -/
def include_search_word (search_words : List PyStr) (filename : PyStr) : Option PyStr :=
  search_words.find? (fun word => pyInStr (word.map pyLower) (filename.map pyLower))

/-- One entry appended to `search_results`. -/
structure SearchResult where
  searchWord : PyStr
  directory  : PyStr
  fileName   : PyStr
deriving DecidableEq, Repr

/-- Model of `is_include_search_word` (lines 11-36): the NEC rule set is evaluated
on `f"{dir_path}/{file_name}"` first; only when it yields nothing is the
general keyword list consulted, on the file name alone. -/
def is_include_search_word (search_words search_nec_words exclusion_words : List PyStr)
    (dir_path file_name : PyStr) (search_results : List SearchResult) :
    Bool × List SearchResult :=
  match include_nec_search_word search_nec_words exclusion_words
      (dir_path ++ '/' :: file_name) with
  | some nec_word => (true, search_results ++ [⟨nec_word, dir_path, file_name⟩])
  | none =>
    match include_search_word search_words file_name with
    | some word => (true, search_results ++ [⟨word, dir_path, file_name⟩])
    | none => (false, search_results)

end SearchWord

namespace TreeCrawlerSelenium

/-!
## `tree_crawler_selenium.py` — click-based tree crawler

The rendered widget is modelled as a tree of rows (`RTree`): a row carries
its `<td>` cell texts, and, for a folder row, the content rows its click
reveals.  At depth 0 `get_tree_rows()` returns the level's content rows;
at every deeper level it returns a Back row followed by the content rows.
Clicks, scrolling and the stabilization waits are environment effects: a
`TreeEnv` tells, per transition and per attempt, whether the two-phase
row-count wait of `wait_for_click_tree` stabilized within that attempt's
timeouts.  `crawl_tree`'s `while` loop is the fuel-indexed `crawlLoop`
(one fuel per iteration; `none` = the loop did not finish within `fuel`
iterations).  The model covers the exception-free executions: the
`StaleElementReferenceException` and `ElementClickInterceptedException`
handlers are driver-raised and never fire in a stable rendered widget.
-/

/-- A row of the widget: its cell texts and (for folder rows) the rows
revealed under it. -/
inductive RTree where
  | mk (tds : List PyStr) (children : List RTree)

/-- The row's `<td>` texts. -/
def RTree.tds : RTree → List PyStr
  | .mk t _ => t

/-- The content rows the row reveals when clicked. -/
def RTree.children : RTree → List RTree
  | .mk _ c => c

/-- A line of `tree_items_selenium.log`: `DIRECTORY:`/`FILE:` with the
full path, or the `Unknown type:` warning line of the depth-0 branch. -/
inductive TEvent where
  | dir (path : List PyStr)
  | file (path : List PyStr)
  | unknown (path : List PyStr)
deriving DecidableEq, Repr

/-- The path a log line carries. -/
def TEvent.path : TEvent → List PyStr
  | .dir p => p
  | .file p => p
  | .unknown p => p

/-- The crawler's counters, log lines and accumulated search hits. -/
structure TState where
  dirs_found     : Nat
  files_found    : Nat
  warning_count  : Nat
  errors_count   : Nat
  events         : List TEvent
  search_results : List SearchWord.SearchResult
deriving DecidableEq, Repr

/-- The state of a freshly constructed `TreeCrawlerSelenium`. -/
def initTState : TState :=
  { dirs_found := 0, files_found := 0, warning_count := 0, errors_count := 0,
    events := [], search_results := [] }

/-- The number of warnings the retry loop of `wait_for_click_tree` (lines
102-117) logs: one per attempt `1..max_retry` whose two-phase row-count
wait timed out (`outcome a = true` iff attempt `a` stabilized). -/
def waitWarnings (outcome : Nat → Bool) (max_retry : Nat) : Nat :=
  ((List.range max_retry).map (· + 1)).countP (fun a => ! outcome a)

/-- Model of `wait_for_click_tree` (lines 100-119): runs the bounded two-phase
stabilization wait, adds one warning per timed-out attempt, and — line
119 — returns `True` unconditionally, whatever the attempts did. -/
def wait_for_click_tree (outcome : Nat → Bool) (max_retry : Nat)
    (warning_count : Nat) : Nat × Bool :=
  (warning_count + waitWarnings outcome max_retry, true)

/-- Python's `if self.max_depth and depth >= self.max_depth` (line 127):
`None` and `0` are falsy, so only a nonzero configured depth limits. -/
def maxDepthTruthy : Option Nat → Nat → Bool
  | none, _ => false
  | some m, depth => decide (m ≠ 0) && decide (m ≤ depth)

/-- The environment of one run: per-transition, per-attempt stabilization
outcomes of the two waits, and the cell texts of the Back row shown at
levels below the top. -/
structure TreeEnv where
  enterOutcome : List PyStr → Nat → Bool
  exitOutcome  : List PyStr → Nat → Bool
  backTds      : List PyStr

/-- The crawler configuration the traversal reads: `max_depth` and the
word lists `search_word` was loaded with. -/
structure TreeConfig where
  max_depth        : Option Nat
  search_words     : List PyStr
  search_nec_words : List PyStr
  exclusion_words  : List PyStr

/-- Python `"/".join(path)`. -/
def joinSlash : List PyStr → PyStr
  | [] => []
  | [p] => p
  | p :: ps => p ++ '/' :: joinSlash ps

end TreeCrawlerSelenium

namespace Decode

/-!
## The file-name decoding pipeline (lines 179-183 / 221-225)

`urllib.parse.unquote`, the `&name=([^&]+)` extraction, the
`%uXXXX → \uXXXX` rewrite and `encode("utf-8").decode("unicode-escape")`,
modelled at character/byte level.
-/

/-- Hex digit value (`[0-9A-Fa-f]`). -/
def hexDigit? (c : Char) : Option Nat :=
  if '0' ≤ c ∧ c ≤ '9' then some (c.toNat - 48)
  else if 'A' ≤ c ∧ c ≤ 'F' then some (c.toNat - 55)
  else if 'a' ≤ c ∧ c ≤ 'f' then some (c.toNat - 87)
  else none

/-- Octal digit value. -/
def octDigit? (c : Char) : Option Nat :=
  if '0' ≤ c ∧ c ≤ '7' then some (c.toNat - 48) else none

/-- UTF-8 decoding with U+FFFD for ill-formed input, as
`bytes.decode("utf-8", errors="replace")` inside `unquote`.  Every step
consumes at least one byte, so the step counter `fuel` is sufficient at
the input's length (see `utf8Decode`). -/
def utf8DecodeGo : Nat → List Nat → PyStr
  | 0, _ => []
  | _ + 1, [] => []
  | fuel + 1, b :: rest =>
    if b < 0x80 then Char.ofNat b :: utf8DecodeGo fuel rest
    else if 0xC2 ≤ b ∧ b ≤ 0xDF then
      match rest with
      | b2 :: rest2 =>
        if 0x80 ≤ b2 ∧ b2 ≤ 0xBF then
          Char.ofNat ((b - 0xC0) * 64 + (b2 - 0x80)) :: utf8DecodeGo fuel rest2
        else '\uFFFD' :: utf8DecodeGo fuel rest
      | [] => ['\uFFFD']
    else if 0xE0 ≤ b ∧ b ≤ 0xEF then
      match rest with
      | b2 :: b3 :: rest3 =>
        if (0x80 ≤ b2 ∧ b2 ≤ 0xBF) ∧ (0x80 ≤ b3 ∧ b3 ≤ 0xBF) then
          let n := (b - 0xE0) * 4096 + (b2 - 0x80) * 64 + (b3 - 0x80)
          if n < 0x800 ∨ (0xD800 ≤ n ∧ n ≤ 0xDFFF) then '\uFFFD' :: utf8DecodeGo fuel rest3
          else Char.ofNat n :: utf8DecodeGo fuel rest3
        else '\uFFFD' :: utf8DecodeGo fuel rest
      | _ => '\uFFFD' :: utf8DecodeGo fuel rest.tail
    else if 0xF0 ≤ b ∧ b ≤ 0xF4 then
      match rest with
      | b2 :: b3 :: b4 :: rest4 =>
        if (0x80 ≤ b2 ∧ b2 ≤ 0xBF) ∧ (0x80 ≤ b3 ∧ b3 ≤ 0xBF) ∧ (0x80 ≤ b4 ∧ b4 ≤ 0xBF) then
          let n := (b - 0xF0) * 262144 + (b2 - 0x80) * 4096 + (b3 - 0x80) * 64 + (b4 - 0x80)
          if n < 0x10000 ∨ 0x10FFFF < n then '\uFFFD' :: utf8DecodeGo fuel rest4
          else Char.ofNat n :: utf8DecodeGo fuel rest4
        else '\uFFFD' :: utf8DecodeGo fuel rest
      | _ => '\uFFFD' :: utf8DecodeGo fuel rest.tail
    else '\uFFFD' :: utf8DecodeGo fuel rest

/-- Model of `bytes.decode("utf-8", errors="replace")`. -/
def utf8Decode (bs : List Nat) : PyStr :=
  utf8DecodeGo bs.length bs

/-- First pass of `unquote`: each `%XX` escape becomes a byte, everything
else stays a character. -/
def unquoteTokens : PyStr → List (Nat ⊕ Char)
  | [] => []
  | '%' :: h1 :: h2 :: rest =>
    match hexDigit? h1, hexDigit? h2 with
    | some a, some b => Sum.inl (16 * a + b) :: unquoteTokens rest
    | _, _ => Sum.inr '%' :: unquoteTokens (h1 :: h2 :: rest)
  | c :: rest => Sum.inr c :: unquoteTokens rest

/-- Second pass: each maximal run of escaped bytes is UTF-8 decoded. -/
def groupBytes : List (Nat ⊕ Char) → List Nat → PyStr
  | [], acc => utf8Decode acc.reverse
  | Sum.inl b :: rest, acc => groupBytes rest (b :: acc)
  | Sum.inr c :: rest, acc => utf8Decode acc.reverse ++ c :: groupBytes rest []

/-- Model of `urllib.parse.unquote`: percent-decode, UTF-8-decoding each maximal
run of escapes. -/
def pyUnquote (s : PyStr) : PyStr :=
  groupBytes (unquoteTokens s) []

/-- The match of `&name=([^&]+)` anchored at the start of `s`: the longest
nonempty run of non-`&` characters after the literal `&name=`. -/
def matchNameAt (s : PyStr) : Option PyStr :=
  if "&name=".data.isPrefixOf s then
    match (s.drop 6).takeWhile (fun c => c ≠ '&') with
    | [] => none
    | v => some v
  else none

/-- Model of `re.search(r"&name=([^&]+)", s)`: the capture of the leftmost
match. -/
def findNameParam : PyStr → Option PyStr
  | [] => none
  | c :: rest =>
    match matchNameAt (c :: rest) with
    | some v => some v
    | none => findNameParam rest

/-- Model of `re.sub(r"%u([0-9A-Fa-f]{4})", r"\\u\1", s)`: each `%uXXXX` becomes
the six characters `\uXXXX`. -/
def subPercentU : PyStr → PyStr
  | '%' :: 'u' :: a :: b :: c :: d :: rest =>
    if (hexDigit? a).isSome ∧ (hexDigit? b).isSome ∧
       (hexDigit? c).isSome ∧ (hexDigit? d).isSome then
      '\\' :: 'u' :: a :: b :: c :: d :: subPercentU rest
    else
      '%' :: subPercentU ('u' :: a :: b :: c :: d :: rest)
  | ch :: rest => ch :: subPercentU rest
  | [] => []

/-- UTF-8 encoding of one character (`str.encode("utf-8")`). -/
def utf8EncodeChar (c : Char) : List Nat :=
  let n := c.toNat
  if n < 0x80 then [n]
  else if n < 0x800 then [0xC0 + n / 64, 0x80 + n % 64]
  else if n < 0x10000 then
    [0xE0 + n / 4096, 0x80 + (n / 64) % 64, 0x80 + n % 64]
  else
    [0xF0 + n / 262144, 0x80 + (n / 4096) % 64, 0x80 + (n / 64) % 64, 0x80 + n % 64]

/-- Model of `str.encode("utf-8")`. -/
def utf8Encode (s : PyStr) : List Nat :=
  s.foldr (fun c acc => utf8EncodeChar c ++ acc) []

/-- The single-character escapes of the `unicode_escape` codec. -/
def escChar? (c : Char) : Option Char :=
  if c = 'n' then some '\n'
  else if c = 't' then some '\t'
  else if c = 'r' then some '\r'
  else if c = '\\' then some '\\'
  else if c = '\'' then some '\''
  else if c = '"' then some '"'
  else if c = 'a' then some (Char.ofNat 7)
  else if c = 'b' then some (Char.ofNat 8)
  else if c = 'f' then some (Char.ofNat 12)
  else if c = 'v' then some (Char.ofNat 11)
  else none

/-- Model of `bytes.decode("unicode-escape")`, step-indexed (each step consumes at
least one byte; see `unicodeEscapeDecode`): bytes are Latin-1 characters
except that backslash escapes (`\uXXXX`, `\xXX`, octal, and the
single-character escapes) are decoded.  Escapes that `unicode_escape`
rejects (and Python raises on) are modelled as kept literally; the
crawler never builds them — `subPercentU` only ever produces well-formed
`\uXXXX`. -/
def unicodeEscapeGo : Nat → List Nat → PyStr
  | 0, _ => []
  | _ + 1, [] => []
  | fuel + 1, b :: rest =>
    if b ≠ 0x5C then Char.ofNat b :: unicodeEscapeGo fuel rest
    else
      match rest with
      | [] => ['\\']
      | e :: rest2 =>
        let ec := Char.ofNat e
        match escChar? ec with
        | some c => c :: unicodeEscapeGo fuel rest2
        | none =>
          if ec = 'u' then
            match rest2 with
            | h1 :: h2 :: h3 :: h4 :: rest3 =>
              match hexDigit? (Char.ofNat h1), hexDigit? (Char.ofNat h2),
                    hexDigit? (Char.ofNat h3), hexDigit? (Char.ofNat h4) with
              | some x1, some x2, some x3, some x4 =>
                Char.ofNat (((x1 * 16 + x2) * 16 + x3) * 16 + x4) :: unicodeEscapeGo fuel rest3
              | _, _, _, _ => '\\' :: 'u' :: unicodeEscapeGo fuel rest2
            | _ => '\\' :: 'u' :: unicodeEscapeGo fuel rest2
          else if ec = 'x' then
            match rest2 with
            | h1 :: h2 :: rest3 =>
              match hexDigit? (Char.ofNat h1), hexDigit? (Char.ofNat h2) with
              | some x1, some x2 => Char.ofNat (x1 * 16 + x2) :: unicodeEscapeGo fuel rest3
              | _, _ => '\\' :: 'x' :: unicodeEscapeGo fuel rest2
            | _ => '\\' :: 'x' :: unicodeEscapeGo fuel rest2
          else
            match octDigit? ec with
            | some o1 =>
              match rest2 with
              | b2 :: rest3 =>
                match octDigit? (Char.ofNat b2) with
                | some o2 =>
                  match rest3 with
                  | b3 :: rest4 =>
                    match octDigit? (Char.ofNat b3) with
                    | some o3 => Char.ofNat (o1 * 64 + o2 * 8 + o3) :: unicodeEscapeGo fuel rest4
                    | none => Char.ofNat (o1 * 8 + o2) :: unicodeEscapeGo fuel rest3
                  | [] => [Char.ofNat (o1 * 8 + o2)]
                | none => Char.ofNat o1 :: unicodeEscapeGo fuel rest2
              | [] => [Char.ofNat o1]
            | none => '\\' :: ec :: unicodeEscapeGo fuel rest2

/-- Model of `bytes.decode("unicode-escape")`. -/
def unicodeEscapeDecode (bs : List Nat) : PyStr :=
  unicodeEscapeGo bs.length bs

/-- Lines 179-183 (and the identical 221-225): the name used for keyword
matching, computed from the row's name cell: `unquote`, extract the
`&name=([^&]+)` capture (falling back to the *raw* `name`), rewrite
`%uXXXX` to `\uXXXX`, then `encode("utf-8").decode("unicode-escape")`. -/
def search_dl_file_name (name : PyStr) : PyStr :=
  let unquote_url := pyUnquote name
  let match_result :=
    match findNameParam unquote_url with
    | some v => v
    | none => name
  let parsed_query := subPercentU match_result
  unicodeEscapeDecode (utf8Encode parsed_query)

end Decode

namespace TreeCrawlerSelenium

/-- The `while index < len(rows)` loop of `crawl_tree` (lines 136-248),
fuel-indexed (one fuel per iteration).  Mirrors the source order: cell
fetch, the `len(tds) < 3` `continue` — which, in the source, does *not*
advance `index` — name/type read, `index += 1`, the Back-row skip below
the top level, then the Folder and File branches (duplicated in the
source for depth 0 and depth > 0).  At a Folder, the child click and the
return click bracket the recursion; both `wait_for_click_tree` calls add
their timed-out attempts to `warning_count` and yield `True`.  The three
entry checks of `crawl_tree` (lines 127-134) are inlined at the descent
site. -/
def crawlLoop (env : TreeEnv) (cfg : TreeConfig) :
    Nat → List RTree → Nat → Nat → List PyStr → TState → Option TState
  | 0, _, _, _, _, _ => none
  | fuel + 1, rows, index, depth, path, st =>
    if rows.length ≤ index then some st
    else
      let row := rows.getD index (.mk [] [])
      let tds := row.tds
      if tds.length < 3 then
        crawlLoop env cfg fuel rows index depth path st
      else
        let name := DirectoryCrawler.pyStrip (tds.getD 0 [])
        let type_ := DirectoryCrawler.pyStrip (tds.getD 2 [])
        let index' := index + 1
        let current_path := path ++ [name]
        if depth = 0 then
          if type_ = "Folder".data then
            let st1 := { st with events := st.events ++ [TEvent.dir current_path],
                                 dirs_found := st.dirs_found + 1 }
            let st2 := { st1 with warning_count :=
              (wait_for_click_tree (env.enterOutcome current_path) 3 st1.warning_count).1 }
            let child_rows := RTree.mk env.backTds [] :: row.children
            let descend :=
              if maxDepthTruthy cfg.max_depth (depth + 1) then some st2
              else if child_rows.length < 2 then some st2
              else crawlLoop env cfg fuel child_rows 0 (depth + 1) current_path st2
            match descend with
            | none => none
            | some st3 =>
              let st4 := { st3 with warning_count :=
                (wait_for_click_tree (env.exitOutcome current_path) 3 st3.warning_count).1 }
              crawlLoop env cfg fuel rows index' depth path st4
          else if type_ = "File".data then
            let st1 := { st with events := st.events ++ [TEvent.file current_path],
                                 files_found := st.files_found + 1 }
            let search_dl_folder_name := joinSlash path
            let search_dl_fname := Decode.search_dl_file_name name
            let res := SearchWord.is_include_search_word cfg.search_words
              cfg.search_nec_words cfg.exclusion_words
              search_dl_folder_name search_dl_fname st1.search_results
            let st2 := { st1 with search_results := res.2 }
            crawlLoop env cfg fuel rows index' depth path st2
          else
            let st1 := { st with events := st.events ++ [TEvent.unknown current_path] }
            crawlLoop env cfg fuel rows index' depth path st1
        else
          if index' = 1 then
            crawlLoop env cfg fuel rows index' depth path st
          else if type_ = "Folder".data then
            let st1 := { st with events := st.events ++ [TEvent.dir current_path],
                                 dirs_found := st.dirs_found + 1 }
            let st2 := { st1 with warning_count :=
              (wait_for_click_tree (env.enterOutcome current_path) 3 st1.warning_count).1 }
            let child_rows := RTree.mk env.backTds [] :: row.children
            let descend :=
              if maxDepthTruthy cfg.max_depth (depth + 1) then some st2
              else if child_rows.length < 2 then some st2
              else crawlLoop env cfg fuel child_rows 0 (depth + 1) current_path st2
            match descend with
            | none => none
            | some st3 =>
              let st4 := { st3 with warning_count :=
                (wait_for_click_tree (env.exitOutcome current_path) 3 st3.warning_count).1 }
              crawlLoop env cfg fuel rows index' depth path st4
          else if type_ = "File".data then
            let st1 := { st with events := st.events ++ [TEvent.file current_path],
                                 files_found := st.files_found + 1 }
            let search_dl_folder_name := joinSlash path
            let search_dl_fname := Decode.search_dl_file_name name
            let res := SearchWord.is_include_search_word cfg.search_words
              cfg.search_nec_words cfg.exclusion_words
              search_dl_folder_name search_dl_fname st1.search_results
            let st2 := { st1 with search_results := res.2 }
            crawlLoop env cfg fuel rows index' depth path st2
          else
            crawlLoop env cfg fuel rows index' depth path st

/-- Model of `crawl_tree` (lines 124-135 entry): depth check (`max_depth` truthy),
degenerate-level check (`len(rows) < 2`), then the row loop from index
0. -/
def crawl_tree (env : TreeEnv) (cfg : TreeConfig) (fuel : Nat) (rows : List RTree)
    (depth : Nat) (path : List PyStr) (st : TState) : Option TState :=
  if maxDepthTruthy cfg.max_depth depth then some st
  else if rows.length < 2 then some st
  else crawlLoop env cfg fuel rows 0 depth path st

/-- The parsed command line of `main()` (lines 304-319): `--url`,
`--delay`, `--xpath`, `--selector`, `--max-depth` (default `None`). -/
structure TreeArgs where
  url       : PyStr
  delay     : Nat
  xpath     : PyStr
  selector  : PyStr
  max_depth : Option Nat

/-- The fields `TreeCrawlerSelenium.__init__` stores (line 55 ff.). -/
structure TreeCrawlerInit where
  delay             : Nat
  view_button_xpath : PyStr
  selector          : PyStr
  max_depth         : Option Nat

/-- Line 320: `TreeCrawlerSelenium(delay=args.delay, xpath=args.xpath,
selector=args.selector)` — `args.max_depth` is parsed but not passed on,
so the crawler is constructed with the `__init__` default
`max_depth=None` (line 55). -/
def mainCrawler (args : TreeArgs) : TreeCrawlerInit :=
  { delay := args.delay, view_button_xpath := args.xpath,
    selector := args.selector, max_depth := none }

end TreeCrawlerSelenium

namespace SeleniumDirectoryCrawler

/-!
## `directory_crawler_selenium.py` — Selenium link-based crawler

Same traversal skeleton as `directory_crawler.py`; the differences are
that links come from rendered DOM elements whose `href` attribute is
already an (absolute) string or missing, that `is_valid_link` also
rejects pseudo-entries by their display text, and that the stored `url`
is the raw attribute value.  URLs circulate as strings here, parsed on
demand. -/

open UrlModel

/-- Model of `urllib.parse.urlparse` of a free-standing reference string. -/
def urlparse (s : PyStr) : Url :=
  urljoin ⟨[], [], [], []⟩ s

/-- A DOM element matched by the CSS selector: its `href` attribute
(`none` when absent) and its display text. -/
structure Element where
  href : Option PyStr
  text : PyStr
deriving DecidableEq, Repr

/-- An entry of the `directories`/`files` lists (`{"url": href, "name":
name}`). -/
structure Item where
  url  : PyStr
  name : PyStr
deriving DecidableEq, Repr

/-- Model of `SeleniumDirectoryCrawler.is_valid_link` (lines 59-65): rejects the
pseudo-entries by `href` or by display name, then requires the resolved
authority to equal the page's. -/
def is_valid_link (href name : PyStr) (base_url : PyStr) : Bool :=
  if href = "../".data ∨ href = "./".data ∨ href = "..".data ∨ href = ".".data ∨
     name = "../".data ∨ name = "./".data ∨ name = "..".data ∨ name = ".".data then
    false
  else
    (urljoin (urlparse base_url) href).netloc = (urlparse base_url).netloc

/-- Model of `SeleniumDirectoryCrawler.extract_links` (lines 67-81): `not href`
also drops an empty attribute; classification is by the raw `href` ending
in `/`. -/
def extract_links (elements : List Element) (base_url : PyStr) : List Item × List Item :=
  match elements with
  | [] => ([], [])
  | elem :: rest =>
    let prev := extract_links rest base_url
    match elem.href with
    | none => prev
    | some href =>
      let name := DirectoryCrawler.pyStrip elem.text
      if href = [] ∨ ¬ is_valid_link href name base_url then prev
      else if href.getLast? = some '/' then (⟨href, name⟩ :: prev.1, prev.2)
      else (prev.1, ⟨href, name⟩ :: prev.2)

/-- Crawler state: `visited_urls`, counters, ghost list of pages actually
loaded (`driver.get`), in order. -/
structure SState where
  visited      : List PyStr
  fetched      : List PyStr
  dirs_found   : Nat
  files_found  : Nat
  errors_count : Nat
deriving DecidableEq, Repr

/-- Fresh crawler state. -/
def initSState : SState :=
  { visited := [], fetched := [], dirs_found := 0, files_found := 0, errors_count := 0 }

/-- Model of `SeleniumDirectoryCrawler.crawl_url` (lines 83-112), fuel-indexed like
`DirectoryCrawler.crawl_list`: depth check, visited check, insertion
before the page load, load (`none` = `WebDriverException`, caught and
counted), logging, recursion into the directory entries. -/
def crawl_list (web : PyStr → Option (List Element)) (max_depth : Nat) :
    Nat → List PyStr → Nat → SState → Option SState
  | 0, _, _, _ => none
  | _ + 1, [], _, st => some st
  | fuel + 1, url :: rest, current_depth, st =>
    Option.bind
      (if max_depth ≤ current_depth then some st
       else if url ∈ st.visited then some st
       else
         let st0 := { st with visited := url :: st.visited,
                              fetched := st.fetched ++ [url] }
         match web url with
         | none => some { st0 with errors_count := st0.errors_count + 1 }
         | some elements =>
           let dfs := extract_links elements url
           let st1 := { st0 with dirs_found := st0.dirs_found + dfs.1.length,
                                 files_found := st0.files_found + dfs.2.length }
           crawl_list web max_depth fuel (dfs.1.map (·.url)) (current_depth + 1) st1)
      (fun stepped => crawl_list web max_depth fuel rest current_depth stepped)

end SeleniumDirectoryCrawler

namespace SpecSide

/-!
## Spec-side definitions

Definitions written from the specification's words, for the refinement
claims that compare the spec's description with the code's behaviour.
-/

open UrlModel

/-- Spec §4.3: "classify a reference as a directory if and only if
its path component ends with the hierarchy separator" — the *path
component of the resolved URL*. -/
def specIsDirectory (base : Url) (href : PyStr) : Bool :=
  ((urljoin base href).path).getLast? = some '/'

/-- Spec §6, the file-name decoding pipeline as stated:
"percent-decode the row's embedded reference, extract a trailing `name=`
query parameter if present" — otherwise keep *the decoded reference* —
"translate `%uXXXX`-style escapes into a standard escape form, then
decode that result as a unicode-escaped string". -/
def specSearchName (name : PyStr) : PyStr :=
  let decoded := Decode.pyUnquote name
  let extracted :=
    match Decode.findNameParam decoded with
    | some v => v
    | none => decoded
  Decode.unicodeEscapeDecode (Decode.utf8Encode (Decode.subPercentU extracted))

end SpecSide

namespace Scenarios

/-!
## Concrete inputs for the scenario claims
-/

open UrlModel DirectoryCrawler TreeCrawlerSelenium

/-- The root listing `http://h/`. -/
def rootUrl : Url := ⟨"http".data, "h".data, "/".data, []⟩

/-- The §8 scenario page: directories `A/`, `B/` and the file
`readme.txt`; every other location unreachable. -/
def webC5 : Url → Option (List Anchor) := fun u =>
  if u = rootUrl then
    some [⟨"A/".data, "A/".data⟩, ⟨"B/".data, "B/".data⟩,
          ⟨"readme.txt".data, "readme.txt".data⟩]
  else none

/-- A file row of the click-based widget. -/
def rowFileF : RTree := .mk ["f.txt".data, "1".data, "File".data] []

/-- A second file row. -/
def rowFileG : RTree := .mk ["g.txt".data, "1".data, "File".data] []

/-- Folder row `C` revealing two file rows. -/
def rowC : RTree := .mk ["C".data, "".data, "Folder".data] [rowFileF, rowFileG]

/-- Sibling file row `D` after `C`. -/
def rowD : RTree := .mk ["D".data, "".data, "File".data] []

/-- The Back row shown below the top level. -/
def backRow : List PyStr := ["..".data, "".data, "Back".data]

/-- Environment of the §8 timeout scenario: the two-phase stabilization
wait times out on every attempt when entering folder `C`; every other
transition stabilizes at once. -/
def envTimeoutC : TreeEnv :=
  { enterOutcome := fun p _ => decide (p ≠ [['C']]),
    exitOutcome := fun _ _ => true,
    backTds := backRow }

/-- Environment in which every transition stabilizes at once. -/
def envStable : TreeEnv :=
  { enterOutcome := fun _ _ => true, exitOutcome := fun _ _ => true,
    backTds := backRow }

/-- Configuration with no depth limit (the value `main` actually
constructs) and empty word lists. -/
def cfgNone : TreeConfig :=
  { max_depth := none, search_words := [], search_nec_words := [],
    exclusion_words := [] }

/-- A widget row with only two cells (`len(tds) < 3`). -/
def shortRow : RTree := .mk ["x".data, "y".data] []

/-- Folder `B` holding the two file rows. -/
def rowB : RTree := .mk ["B".data, "".data, "Folder".data] [rowFileF, rowFileG]

/-- Folder `A` holding folder `B` and a file: a three-level hierarchy. -/
def rowA : RTree := .mk ["A".data, "".data, "Folder".data] [rowB, rowFileG]

/-- A command line with `--max-depth 1`. -/
def cliArgs : TreeArgs :=
  { url := "http://h/".data, delay := 1, xpath := "//b".data,
    selector := "tr".data, max_depth := some 1 }

end Scenarios

/-!
# Theorems
-/

open UrlModel

/-- Helper: once the row at the current index has fewer than three cells,
the `while` loop of `crawl_tree` revisits the same index forever (the
`continue` at line 141 precedes `index += 1`), so no amount of fuel
completes it. -/
theorem crawlLoop_short_row_diverges (env : TreeCrawlerSelenium.TreeEnv)
    (cfg : TreeCrawlerSelenium.TreeConfig) (rows : List TreeCrawlerSelenium.RTree)
    (index depth : Nat) (path : List PyStr) (st : TreeCrawlerSelenium.TState)
    (hidx : index < rows.length)
    (hshort : (rows.getD index (TreeCrawlerSelenium.RTree.mk [] [])).tds.length < 3) :
    ∀ fuel, TreeCrawlerSelenium.crawlLoop env cfg fuel rows index depth path st = none := by
  intro fuel
  induction fuel with
  | zero => rfl
  | succ n ih =>
    rw [TreeCrawlerSelenium.crawlLoop]
    rw [if_neg (by omega : ¬ rows.length ≤ index)]
    simp only []
    rw [if_pos hshort]
    exact ih

/-- Claim C1 — the claim's expected handling of an exhausted stabilization
wait does not match the code: `wait_for_click_tree` ends in an
unconditional `return True` (line 119), so the `if
self.wait_for_click_tree(prev_tr_count):` guard always descends.  In the
§8 scenario (entering folder `C` times out on every one of the three
attempts) the run logs *three* warnings into `warning_count`, leaves
`errors_count` at 0, emits `C`'s whole subtree, and then the sibling. -/
theorem C1_wait_timeout_still_descends :
    (∀ (outcome : Nat → Bool) (max_retry warning_count : Nat),
       (TreeCrawlerSelenium.wait_for_click_tree outcome max_retry warning_count).2 = true) ∧
    TreeCrawlerSelenium.crawl_tree Scenarios.envTimeoutC Scenarios.cfgNone 100
        [Scenarios.rowC, Scenarios.rowD] 0 [] TreeCrawlerSelenium.initTState =
      some { dirs_found := 1, files_found := 3, warning_count := 3, errors_count := 0,
             events := [TreeCrawlerSelenium.TEvent.dir [['C']],
                        TreeCrawlerSelenium.TEvent.file [['C'], "f.txt".data],
                        TreeCrawlerSelenium.TEvent.file [['C'], "g.txt".data],
                        TreeCrawlerSelenium.TEvent.file [['D']]],
             search_results := [] } :=
  ⟨fun _ _ _ => rfl, by decide⟩

/-- Claim C2 — traversal does *not* terminate on every hierarchy: a
click-based level containing a row with fewer than three cells makes the
row loop spin on the same index forever (`continue` before `index += 1`,
lines 140-141,152), so the run completes under no step bound at all. -/
theorem C2_short_row_level_never_terminates :
    ∀ fuel, TreeCrawlerSelenium.crawl_tree Scenarios.envStable Scenarios.cfgNone fuel
        [Scenarios.shortRow, Scenarios.rowD] 0 [] TreeCrawlerSelenium.initTState = none := by
  intro fuel
  unfold TreeCrawlerSelenium.crawl_tree
  rw [if_neg (by decide), if_neg (by decide)]
  exact crawlLoop_short_row_diverges _ _ _ _ _ _ _ (by decide) (by decide) fuel

/-- Claim C5 — link-based, root with `A/`, `B/`, `readme.txt`, `maxDepth =
1`: the run fetches only the root, logs both directories and the file,
descends into neither (`depth == maxDepth` returns before the visited
check and the request), and ends with dirs = 2, files = 1, errors = 0. -/
theorem C5_max_depth_truncation_scenario :
    DirectoryCrawler.start_crawling Scenarios.webC5 1 10 Scenarios.rootUrl =
      some { visited := [Scenarios.rootUrl],
             fetched := [Scenarios.rootUrl],
             dirs_found := 2, files_found := 1, errors_count := 0,
             events := [DirectoryCrawler.LEvent.dir Scenarios.rootUrl
                          ⟨"http".data, "h".data, "/A/".data, []⟩ "A/".data 0,
                        DirectoryCrawler.LEvent.dir Scenarios.rootUrl
                          ⟨"http".data, "h".data, "/B/".data, []⟩ "B/".data 0,
                        DirectoryCrawler.LEvent.file Scenarios.rootUrl
                          ⟨"http".data, "h".data, "/readme.txt".data, []⟩
                          "readme.txt".data 0] } := by
  decide

/-- Claim C7, counterexample — the code classifies by the *raw* `href`
ending in `/`, not by the path component of the resolved URL: the valid
reference `d/?x=1` on `http://h/` resolves to path `/d/` (a directory by
the spec's rule) yet is placed in the files list. -/
theorem C7_counterexample_query_href :
    DirectoryCrawler.is_valid_link "d/?x=1".data Scenarios.rootUrl = true ∧
    SpecSide.specIsDirectory Scenarios.rootUrl "d/?x=1".data = true ∧
    DirectoryCrawler.extract_links [⟨"d/?x=1".data, "d".data⟩] Scenarios.rootUrl =
      ([], [⟨urljoin Scenarios.rootUrl "d/?x=1".data, "d".data, "d/?x=1".data⟩]) := by
  decide

/-- Claim C8, counterexample — an identity-pattern match whose span lies
wholly inside an exclusion word's match span is *not* suppressed: with
exclusion word `connect`, the name `connect` contains exactly one NEC
match, at span [3, 6), inside the exclusion match span [0, 7), and the
classifier still reports `NEC` (the code tests whether the exclusion
pattern matches *inside the three matched characters*, where `connect`
cannot fit). -/
theorem C8_counterexample_span_containment :
    SearchWord.include_nec_search_word ["NEC".data] ["connect".data] "connect".data =
      some "NEC".data ∧
    SearchWord.finditer (SearchWord.generate_regex "NEC".data) "connect".data =
      [(3, "nec".data)] ∧
    SearchWord.finditer (SearchWord.generate_regex "connect".data) "connect".data =
      [(0, "connect".data)] ∧
    3 + "nec".data.length ≤ 0 + "connect".data.length := by
  decide

/-- Claim C9, counterexample — when no `name=` parameter is present the
code falls back to the *raw* row name, not the percent-decoded reference
the spec describes: on `abc%41` the code's pipeline yields `abc%41` while
the spec's pipeline yields `abcA`. -/
theorem C9_counterexample_fallback_raw :
    Decode.search_dl_file_name "abc%41".data = "abc%41".data ∧
    SpecSide.specSearchName "abc%41".data = "abcA".data ∧
    Decode.search_dl_file_name "abc%41".data ≠ SpecSide.specSearchName "abc%41".data := by
  decide

/-- Claim C9, amended — the name used for matching is: percent-decode the
row name; if the decoded text contains `&name=` followed by a nonempty
run of non-`&` characters, take that run, *otherwise fall back to the
raw (undecoded) row name*; rewrite `%uXXXX` to `\uXXXX`; decode the
UTF-8 bytes of the result as unicode-escaped. -/
theorem C9_amended_pipeline (name : PyStr) :
    (∀ v, Decode.findNameParam (Decode.pyUnquote name) = some v →
       Decode.search_dl_file_name name =
         Decode.unicodeEscapeDecode (Decode.utf8Encode (Decode.subPercentU v))) ∧
    (Decode.findNameParam (Decode.pyUnquote name) = none →
       Decode.search_dl_file_name name =
         Decode.unicodeEscapeDecode (Decode.utf8Encode (Decode.subPercentU name))) := by
  constructor
  · intro v hv
    simp only [Decode.search_dl_file_name, hv]
  · intro hnone
    simp only [Decode.search_dl_file_name, hnone]

/-- Witness for `C9_amended_pipeline`: both branches at concrete names. -/
theorem C9_amended_pipeline_witness :
    Decode.search_dl_file_name "a&name=b.txt".data =
      Decode.unicodeEscapeDecode (Decode.utf8Encode (Decode.subPercentU "b.txt".data)) ∧
    Decode.search_dl_file_name "q%41".data =
      Decode.unicodeEscapeDecode (Decode.utf8Encode (Decode.subPercentU "q%41".data)) :=
  ⟨(C9_amended_pipeline "a&name=b.txt".data).1 "b.txt".data (by decide),
   (C9_amended_pipeline "q%41".data).2 (by decide)⟩

/-- Claim C10 — every configured identity keyword other than `NEC` is
dispatched by Python's substring test `word in "<variant>"`: a keyword
contained in `nippondenki` triggers exactly the hard-coded
`nippon.*?denki` class pattern, so the classifier reports the keyword iff
that full variant pattern occurs in the input, regardless of the
keyword's own text. -/
theorem C10_substring_dispatch (w : PyStr) (ex : List PyStr) (line : PyStr)
    (hw : ¬ w = "NEC".data) (hsub : pyInStr w "nippondenki".data = true) :
    SearchWord.include_nec_search_word [w] ex line =
      if SearchWord.searchGapPattern SearchWord.nipponClasses SearchWord.denkiClasses line
      then some w else none := by
  simp only [SearchWord.include_nec_search_word, SearchWord.include_nec_search_word.go,
    hw, hsub, if_false, if_true]

/-- Witness for `C10_substring_dispatch`: the keyword `pond` (a strict
substring of `nippondenki` whose own text occurs in neither input) hits
on `NipponDenki` and misses on `pond soup`. -/
theorem C10_substring_dispatch_witness :
    SearchWord.include_nec_search_word ["pond".data] [] "NipponDenki".data =
      some "pond".data ∧
    SearchWord.include_nec_search_word ["pond".data] [] "pond soup".data = none := by
  have h1 := C10_substring_dispatch "pond".data [] "NipponDenki".data (by decide) (by decide)
  have h2 := C10_substring_dispatch "pond".data [] "pond soup".data (by decide) (by decide)
  exact ⟨h1.trans (by decide), h2.trans (by decide)⟩

/-- Helper: the `"NEC"` branch of `include_nec_search_word`, when the
pattern has matches: the word list's head decides, as an `if` over the
per-match exclusion test. -/
theorem include_nec_branch_eq (rest ex : List PyStr) (line : PyStr)
    (m : Nat × PyStr) (ms : List (Nat × PyStr))
    (hm : SearchWord.finditer (SearchWord.generate_regex "NEC".data) line = m :: ms) :
    SearchWord.include_nec_search_word ("NEC".data :: rest) ex line =
      if (m :: ms).any (fun mm => ! ex.any fun ex_word =>
          SearchWord.reSearch (SearchWord.generate_regex ex_word) mm.2)
      then some "NEC".data else none := by
  unfold SearchWord.include_nec_search_word SearchWord.include_nec_search_word.go
  rw [if_pos rfl, hm]

/-- Claim C8, amended — with `NEC` in the identity list and the pattern
matching somewhere in the name, the tag is reported iff *some occurrence's
matched text contains no match of any exclusion word's pattern*; when
every occurrence's matched text contains one, the branch yields nothing at
once (no fall-through to the remaining identity rules).  Suppression is
decided inside the three matched characters, not by span containment in a
surrounding exclusion-word match. -/
theorem C8_amended_exclusion_in_matched_text (rest ex : List PyStr) (line : PyStr)
    (h : SearchWord.finditer (SearchWord.generate_regex "NEC".data) line ≠ []) :
    (SearchWord.include_nec_search_word ("NEC".data :: rest) ex line = some "NEC".data ↔
      ∃ m ∈ SearchWord.finditer (SearchWord.generate_regex "NEC".data) line,
        ∀ ex_word ∈ ex,
          SearchWord.reSearch (SearchWord.generate_regex ex_word) m.2 = false) ∧
    (SearchWord.include_nec_search_word ("NEC".data :: rest) ex line = none ↔
      ∀ m ∈ SearchWord.finditer (SearchWord.generate_regex "NEC".data) line,
        ∃ ex_word ∈ ex,
          SearchWord.reSearch (SearchWord.generate_regex ex_word) m.2 = true) := by
  cases hm : SearchWord.finditer (SearchWord.generate_regex "NEC".data) line with
  | nil => exact absurd hm h
  | cons m ms =>
    have hgo := include_nec_branch_eq rest ex line m ms hm
    by_cases hany : ((m :: ms).any (fun mm => ! ex.any fun ex_word =>
        SearchWord.reSearch (SearchWord.generate_regex ex_word) mm.2)) = true
    · rw [hgo, if_pos hany]
      obtain ⟨x, hx, hpx⟩ := List.any_eq_true.mp hany
      rw [Bool.not_eq_true'] at hpx
      have hxf : ∀ ex_word ∈ ex,
          SearchWord.reSearch (SearchWord.generate_regex ex_word) x.2 = false :=
        fun exw hexw => Bool.eq_false_iff.mpr (List.any_eq_false.mp hpx exw hexw)
      constructor
      · exact ⟨fun _ => ⟨x, hx, hxf⟩, fun _ => rfl⟩
      · constructor
        · intro hcontra
          exact absurd hcontra (by simp)
        · intro hall
          obtain ⟨exw, hexw, htrue⟩ := hall x hx
          rw [hxf exw hexw] at htrue
          cases htrue
    · rw [hgo, if_neg hany]
      have hall : ∀ mm ∈ m :: ms, ∃ ex_word ∈ ex,
          SearchWord.reSearch (SearchWord.generate_regex ex_word) mm.2 = true := by
        intro mm hmm
        have h1 := List.any_eq_false.mp (Bool.eq_false_iff.mpr hany) mm hmm
        have h2 : (ex.any fun ex_word =>
            SearchWord.reSearch (SearchWord.generate_regex ex_word) mm.2) = true := by
          by_contra hc
          have hf := Bool.eq_false_iff.mpr hc
          exact h1 (by rw [hf]; rfl)
        exact List.any_eq_true.mp h2
      constructor
      · constructor
        · intro hcontra
          exact absurd hcontra (by simp)
        · intro hex
          obtain ⟨x, hx, hxf⟩ := hex
          obtain ⟨exw, hexw, htrue⟩ := hall x hx
          rw [hxf exw hexw] at htrue
          cases htrue
      · exact ⟨fun _ => hall, fun _ => rfl⟩

/-- Witness for `C8_amended_exclusion_in_matched_text`: the sole `NEC`
occurrence in `xnecy` is suppressed by the exclusion word `nec` (which
matches inside the matched text), and reported with no exclusions. -/
theorem C8_amended_witness :
    SearchWord.include_nec_search_word ["NEC".data] ["nec".data] "xnecy".data = none ∧
    SearchWord.include_nec_search_word ["NEC".data] [] "xnecy".data = some "NEC".data :=
  ⟨(C8_amended_exclusion_in_matched_text [] ["nec".data] "xnecy".data (by decide)).2.mpr
     (by decide),
   (C8_amended_exclusion_in_matched_text [] [] "xnecy".data (by decide)).1.mpr
     (by decide)⟩

/-- Helper: every directory entry produced by `extract_links` has a raw
`href` ending in `/` and passed `is_valid_link`. -/
theorem extract_links_dirs_spec (base : Url) (anchors : List DirectoryCrawler.Anchor) :
    ∀ d ∈ (DirectoryCrawler.extract_links anchors base).1,
      d.href.getLast? = some '/' ∧ DirectoryCrawler.is_valid_link d.href base = true := by
  induction anchors with
  | nil => intro d hd; simp [DirectoryCrawler.extract_links] at hd
  | cons link rest ih =>
    intro d hd
    simp only [DirectoryCrawler.extract_links] at hd
    split at hd
    · exact ih d hd
    · rename_i hv
      split at hd
      · rename_i hs
        rcases List.mem_cons.mp hd with h1 | h1
        · subst h1
          exact ⟨hs, by simpa using hv⟩
        · exact ih d h1
      · exact ih d hd

/-- Helper: every file entry produced by `extract_links` has a raw
`href` not ending in `/` and passed `is_valid_link`. -/
theorem extract_links_files_spec (base : Url) (anchors : List DirectoryCrawler.Anchor) :
    ∀ f ∈ (DirectoryCrawler.extract_links anchors base).2,
      ¬ f.href.getLast? = some '/' ∧ DirectoryCrawler.is_valid_link f.href base = true := by
  induction anchors with
  | nil => intro f hf; simp [DirectoryCrawler.extract_links] at hf
  | cons link rest ih =>
    intro f hf
    simp only [DirectoryCrawler.extract_links] at hf
    split at hf
    · exact ih f hf
    · rename_i hv
      split at hf
      · exact ih f hf
      · rename_i hs
        rcases List.mem_cons.mp hf with h1 | h1
        · subst h1
          exact ⟨hs, by simpa using hv⟩
        · exact ih f h1

/-- Helper: a valid link of the page is classified into the directories
or the files list according to its raw `href`'s last character. -/
theorem extract_links_mem (base : Url) (anchors : List DirectoryCrawler.Anchor) :
    ∀ link ∈ anchors, DirectoryCrawler.is_valid_link link.href base = true →
      (link.href.getLast? = some '/' →
        (⟨urljoin base link.href, DirectoryCrawler.pyStrip link.text, link.href⟩ :
          DirectoryCrawler.Item) ∈ (DirectoryCrawler.extract_links anchors base).1) ∧
      (¬ link.href.getLast? = some '/' →
        (⟨urljoin base link.href, DirectoryCrawler.pyStrip link.text, link.href⟩ :
          DirectoryCrawler.Item) ∈ (DirectoryCrawler.extract_links anchors base).2) := by
  induction anchors with
  | nil => intro link h; simp at h
  | cons a rest ih =>
    intro link hmem hv
    rcases List.mem_cons.mp hmem with h1 | h1
    · subst h1
      constructor
      · intro hs
        simp only [DirectoryCrawler.extract_links]
        rw [if_neg (by simp [hv]), if_pos hs]
        exact List.mem_cons_self _ _
      · intro hs
        simp only [DirectoryCrawler.extract_links]
        rw [if_neg (by simp [hv]), if_neg hs]
        exact List.mem_cons_self _ _
    · have hrec := ih link h1 hv
      constructor
      · intro hs
        simp only [DirectoryCrawler.extract_links]
        split
        · exact hrec.1 hs
        · split
          · exact List.mem_cons_of_mem _ (hrec.1 hs)
          · exact hrec.1 hs
      · intro hs
        simp only [DirectoryCrawler.extract_links]
        split
        · exact hrec.2 hs
        · split
          · exact hrec.2 hs
          · exact List.mem_cons_of_mem _ (hrec.2 hs)

/-- Claim C7, amended — the extractor classifies a hyperlink as a directory
iff its *raw* `href` text ends with `/` (not the path component of the
resolved URL), as a file otherwise, and skips the self/parent
pseudo-entries `../ ./ .. .`. -/
theorem C7_amended_raw_href_rule (base : Url) (anchors : List DirectoryCrawler.Anchor) :
    (∀ d ∈ (DirectoryCrawler.extract_links anchors base).1,
       d.href.getLast? = some '/' ∧ DirectoryCrawler.is_valid_link d.href base = true) ∧
    (∀ f ∈ (DirectoryCrawler.extract_links anchors base).2,
       ¬ f.href.getLast? = some '/' ∧ DirectoryCrawler.is_valid_link f.href base = true) ∧
    (∀ link ∈ anchors, DirectoryCrawler.is_valid_link link.href base = true →
       (link.href.getLast? = some '/' →
         (⟨urljoin base link.href, DirectoryCrawler.pyStrip link.text, link.href⟩ :
           DirectoryCrawler.Item) ∈ (DirectoryCrawler.extract_links anchors base).1) ∧
       (¬ link.href.getLast? = some '/' →
         (⟨urljoin base link.href, DirectoryCrawler.pyStrip link.text, link.href⟩ :
           DirectoryCrawler.Item) ∈ (DirectoryCrawler.extract_links anchors base).2)) ∧
    (∀ h' ∈ ["../".data, "./".data, "..".data, ".".data],
       DirectoryCrawler.is_valid_link h' base = false) := by
  refine ⟨extract_links_dirs_spec base anchors, extract_links_files_spec base anchors,
    extract_links_mem base anchors, ?_⟩
  intro h' hh'
  fin_cases hh' <;> rfl

/-- Witness for `C7_amended_raw_href_rule`: the page of the §8 scenario,
its `A/` anchor landing in the directories list, `readme.txt` in the
files list, and `../` rejected. -/
theorem C7_amended_raw_href_rule_witness :
    (⟨urljoin Scenarios.rootUrl "A/".data, "A/".data, "A/".data⟩ : DirectoryCrawler.Item) ∈
      (DirectoryCrawler.extract_links
        [⟨"A/".data, "A/".data⟩, ⟨"readme.txt".data, "readme.txt".data⟩]
        Scenarios.rootUrl).1 ∧
    (⟨urljoin Scenarios.rootUrl "readme.txt".data, "readme.txt".data, "readme.txt".data⟩ :
      DirectoryCrawler.Item) ∈
      (DirectoryCrawler.extract_links
        [⟨"A/".data, "A/".data⟩, ⟨"readme.txt".data, "readme.txt".data⟩]
        Scenarios.rootUrl).2 ∧
    DirectoryCrawler.is_valid_link "../".data Scenarios.rootUrl = false := by
  have h := C7_amended_raw_href_rule Scenarios.rootUrl
    [⟨"A/".data, "A/".data⟩, ⟨"readme.txt".data, "readme.txt".data⟩]
  refine ⟨?_, ?_, h.2.2.2 "../".data (by decide)⟩
  · exact ((h.2.2.1 ⟨"A/".data, "A/".data⟩ (by decide) (by decide)).1 (by decide))
  · exact ((h.2.2.1 ⟨"readme.txt".data, "readme.txt".data⟩ (by decide) (by decide)).2
      (by decide))

/-- Helper: the directory-logging fold appends one `DIRECTORY` line per
entry and counts them; no other field changes. -/
theorem foldl_dir_emit (url : Url) (depth : Nat) (l : List DirectoryCrawler.Item)
    (st : DirectoryCrawler.CrawlState) :
    l.foldl (fun s d =>
      { s with events := s.events ++ [DirectoryCrawler.LEvent.dir url d.url d.name depth],
               dirs_found := s.dirs_found + 1 }) st =
    { st with
      events := st.events ++ l.map (fun d => DirectoryCrawler.LEvent.dir url d.url d.name depth),
      dirs_found := st.dirs_found + l.length } := by
  induction l generalizing st with
  | nil => simp
  | cons a l ih =>
    simp only [List.foldl_cons, ih, List.map_cons, List.length_cons]
    simp [List.append_assoc]
    omega

/-- Helper: the file-logging fold, likewise. -/
theorem foldl_file_emit (url : Url) (depth : Nat) (l : List DirectoryCrawler.Item)
    (st : DirectoryCrawler.CrawlState) :
    l.foldl (fun s f =>
      { s with events := s.events ++ [DirectoryCrawler.LEvent.file url f.url f.name depth],
               files_found := s.files_found + 1 }) st =
    { st with
      events := st.events ++ l.map (fun f => DirectoryCrawler.LEvent.file url f.url f.name depth),
      files_found := st.files_found + l.length } := by
  induction l generalizing st with
  | nil => simp
  | cons a l ih =>
    simp only [List.foldl_cons, ih, List.map_cons, List.length_cons]
    simp [List.append_assoc]
    omega

/-- Helper: a passing `is_valid_link` means the resolved authority equals
the page's. -/
theorem is_valid_link_netloc (href : PyStr) (base : Url)
    (h : DirectoryCrawler.is_valid_link href base = true) :
    (urljoin base href).netloc = base.netloc := by
  unfold DirectoryCrawler.is_valid_link at h
  split at h
  · cases h
  · exact of_decide_eq_true h

/-- Helper: every item `extract_links` emits carries the page's
authority. -/
theorem extract_links_netloc (base : Url) (anchors : List DirectoryCrawler.Anchor) :
    ∀ item : DirectoryCrawler.Item,
      item ∈ (DirectoryCrawler.extract_links anchors base).1 ∨
      item ∈ (DirectoryCrawler.extract_links anchors base).2 →
      item.url.netloc = base.netloc := by
  induction anchors with
  | nil =>
    intro item hmem
    rcases hmem with h | h <;> simp [DirectoryCrawler.extract_links] at h
  | cons link rest ih =>
    intro item hmem
    rcases hmem with h | h
    · simp only [DirectoryCrawler.extract_links] at h
      split at h
      · exact ih item (Or.inl h)
      · rename_i hv
        split at h
        · rcases List.mem_cons.mp h with h1 | h1
          · subst h1
            exact is_valid_link_netloc link.href base (by simpa using hv)
          · exact ih item (Or.inl h1)
        · exact ih item (Or.inl h)
    · simp only [DirectoryCrawler.extract_links] at h
      split at h
      · exact ih item (Or.inr h)
      · rename_i hv
        split at h
        · exact ih item (Or.inr h)
        · rcases List.mem_cons.mp h with h1 | h1
          · subst h1
            exact is_valid_link_netloc link.href base (by simpa using hv)
          · exact ih item (Or.inr h1)


/-- Helper: master invariant of the link-based traversal.  From any state
whose ghost fetch log is duplicate-free and covered by the visited set:
the run keeps the fetch log duplicate-free and covered, only grows
visited and fetched, every new log line's node carries its listing page's
authority, and every newly visited location shares its authority with one
of the pending URLs. -/
theorem crawl_list_inv (web : Url → Option (List DirectoryCrawler.Anchor)) (maxD : Nat) :
    ∀ (fuel : Nat) (urls : List Url) (depth : Nat) (st st' : DirectoryCrawler.CrawlState),
      DirectoryCrawler.crawl_list web maxD fuel urls depth st = some st' →
      st.fetched.Nodup → (∀ u ∈ st.fetched, u ∈ st.visited) →
      (st'.fetched.Nodup ∧
       (∀ u ∈ st'.fetched, u ∈ st'.visited) ∧
       (∀ u ∈ st.visited, u ∈ st'.visited) ∧
       (∀ u ∈ st.fetched, u ∈ st'.fetched) ∧
       (∀ e ∈ st'.events, e ∈ st.events ∨ e.url.netloc = e.page.netloc) ∧
       (∀ u ∈ st'.visited, u ∈ st.visited ∨ ∃ r ∈ urls, u.netloc = r.netloc)) := by
  intro fuel
  induction fuel with
  | zero =>
    intro urls depth st st' h
    exact absurd h (by intro hc; cases hc)
  | succ n ih =>
    intro urls depth st st' h hnd hsub
    cases urls with
    | nil =>
      replace h : some st = some st' := h
      cases h
      exact ⟨hnd, hsub, fun u hu => hu, fun u hu => hu, fun e he => Or.inl he,
        fun u hu => Or.inl hu⟩
    | cons url rest =>
      rw [DirectoryCrawler.crawl_list, Option.bind_eq_some] at h
      obtain ⟨stepped, hstep, hrest⟩ := h
      by_cases hA : maxD ≤ depth
      · rw [if_pos hA] at hstep
        cases hstep
        obtain ⟨a1, a2, a3, a4, a5, a6⟩ := ih rest depth st st' hrest hnd hsub
        refine ⟨a1, a2, a3, a4, a5, fun u hu => ?_⟩
        rcases a6 u hu with h1 | ⟨r, hr, he⟩
        · exact Or.inl h1
        · exact Or.inr ⟨r, List.mem_cons_of_mem _ hr, he⟩
      · rw [if_neg hA] at hstep
        by_cases hB : url ∈ st.visited
        · rw [if_pos hB] at hstep
          cases hstep
          obtain ⟨a1, a2, a3, a4, a5, a6⟩ := ih rest depth st st' hrest hnd hsub
          refine ⟨a1, a2, a3, a4, a5, fun u hu => ?_⟩
          rcases a6 u hu with h1 | ⟨r, hr, he⟩
          · exact Or.inl h1
          · exact Or.inr ⟨r, List.mem_cons_of_mem _ hr, he⟩
        · rw [if_neg hB] at hstep
          have hurlf : url ∉ st.fetched := fun hc => hB (hsub url hc)
          have hnd0 : (st.fetched ++ [url]).Nodup := by
            simp [List.nodup_append, hnd, hurlf]
          have hsub0 : ∀ u ∈ st.fetched ++ [url], u ∈ url :: st.visited := by
            intro u hu
            rcases List.mem_append.mp hu with hu | hu
            · exact List.mem_cons_of_mem _ (hsub u hu)
            · simp at hu
              simp [hu]
          cases hweb : web url with
          | none =>
            rw [hweb] at hstep
            replace hstep : some { st with
                visited := url :: st.visited,
                fetched := st.fetched ++ [url],
                errors_count := st.errors_count + 1 } = some stepped := hstep
            cases hstep
            obtain ⟨a1, a2, a3, a4, a5, a6⟩ := ih rest depth _ st' hrest hnd0 hsub0
            refine ⟨a1, a2, ?_, ?_, a5, ?_⟩
            · exact fun u hu => a3 u (List.mem_cons_of_mem _ hu)
            · exact fun u hu => a4 u (List.mem_append_left _ hu)
            · intro u hu
              rcases a6 u hu with hu1 | ⟨r, hr, he⟩
              · rcases List.mem_cons.mp hu1 with hu2 | hu2
                · exact Or.inr ⟨url, List.mem_cons_self _ _, by rw [hu2]⟩
                · exact Or.inl hu2
              · exact Or.inr ⟨r, List.mem_cons_of_mem _ hr, he⟩
          | some anchors =>
            rw [hweb] at hstep
            replace hstep : DirectoryCrawler.crawl_list web maxD n
                ((DirectoryCrawler.extract_links anchors url).1.map (·.url)) (depth + 1)
                ((DirectoryCrawler.extract_links anchors url).2.foldl
                  (fun s f => { s with
                    events := s.events ++ [DirectoryCrawler.LEvent.file url f.url f.name depth],
                    files_found := s.files_found + 1 })
                  ((DirectoryCrawler.extract_links anchors url).1.foldl
                    (fun s d => { s with
                      events := s.events ++ [DirectoryCrawler.LEvent.dir url d.url d.name depth],
                      dirs_found := s.dirs_found + 1 })
                    { st with
                      visited := url :: st.visited,
                      fetched := st.fetched ++ [url] })) = some stepped := hstep
            rw [foldl_dir_emit, foldl_file_emit] at hstep
            obtain ⟨b1, b2, b3, b4, b5, b6⟩ := ih _ _ _ stepped hstep hnd0 hsub0
            obtain ⟨a1, a2, a3, a4, a5, a6⟩ := ih rest depth stepped st' hrest b1 b2
            refine ⟨a1, a2, ?_, ?_, ?_, ?_⟩
            · exact fun u hu => a3 u (b3 u (List.mem_cons_of_mem _ hu))
            · exact fun u hu => a4 u (b4 u (List.mem_append_left _ hu))
            · intro e he
              rcases a5 e he with he1 | he1
              · rcases b5 e he1 with he2 | he2
                · rcases List.mem_append.mp he2 with he3 | he3
                  · rcases List.mem_append.mp he3 with he4 | he4
                    · exact Or.inl he4
                    · obtain ⟨d, hd, rfl⟩ := List.mem_map.mp he4
                      exact Or.inr (extract_links_netloc url anchors d (Or.inl hd))
                  · obtain ⟨f, hf, rfl⟩ := List.mem_map.mp he3
                    exact Or.inr (extract_links_netloc url anchors f (Or.inr hf))
                · exact Or.inr he2
              · exact Or.inr he1
            · intro u hu
              rcases a6 u hu with hu1 | ⟨r, hr, he⟩
              · rcases b6 u hu1 with hu2 | ⟨r, hr, he⟩
                · rcases List.mem_cons.mp hu2 with hu3 | hu3
                  · exact Or.inr ⟨url, List.mem_cons_self _ _, by rw [hu3]⟩
                  · exact Or.inl hu3
                · obtain ⟨d, hd, rfl⟩ := List.mem_map.mp hr
                  refine Or.inr ⟨url, List.mem_cons_self _ _, ?_⟩
                  rw [he]
                  exact extract_links_netloc url anchors d (Or.inl hd)
              · exact Or.inr ⟨r, List.mem_cons_of_mem _ hr, he⟩

/-- Helper: the same fetch-log invariant for the Selenium link crawler. -/
theorem selenium_crawl_list_inv
    (web : PyStr → Option (List SeleniumDirectoryCrawler.Element)) (maxD : Nat) :
    ∀ (fuel : Nat) (urls : List PyStr) (depth : Nat)
      (st st' : SeleniumDirectoryCrawler.SState),
      SeleniumDirectoryCrawler.crawl_list web maxD fuel urls depth st = some st' →
      st.fetched.Nodup → (∀ u ∈ st.fetched, u ∈ st.visited) →
      (st'.fetched.Nodup ∧
       (∀ u ∈ st'.fetched, u ∈ st'.visited) ∧
       (∀ u ∈ st.visited, u ∈ st'.visited) ∧
       (∀ u ∈ st.fetched, u ∈ st'.fetched)) := by
  intro fuel
  induction fuel with
  | zero =>
    intro urls depth st st' h
    exact absurd h (by intro hc; cases hc)
  | succ n ih =>
    intro urls depth st st' h hnd hsub
    cases urls with
    | nil =>
      replace h : some st = some st' := h
      cases h
      exact ⟨hnd, hsub, fun u hu => hu, fun u hu => hu⟩
    | cons url rest =>
      rw [SeleniumDirectoryCrawler.crawl_list, Option.bind_eq_some] at h
      obtain ⟨stepped, hstep, hrest⟩ := h
      by_cases hA : maxD ≤ depth
      · rw [if_pos hA] at hstep
        cases hstep
        exact ih rest depth st st' hrest hnd hsub
      · rw [if_neg hA] at hstep
        by_cases hB : url ∈ st.visited
        · rw [if_pos hB] at hstep
          cases hstep
          exact ih rest depth st st' hrest hnd hsub
        · rw [if_neg hB] at hstep
          have hurlf : url ∉ st.fetched := fun hc => hB (hsub url hc)
          have hnd0 : (st.fetched ++ [url]).Nodup := by
            simp [List.nodup_append, hnd, hurlf]
          have hsub0 : ∀ u ∈ st.fetched ++ [url], u ∈ url :: st.visited := by
            intro u hu
            rcases List.mem_append.mp hu with hu | hu
            · exact List.mem_cons_of_mem _ (hsub u hu)
            · simp at hu
              simp [hu]
          cases hweb : web url with
          | none =>
            rw [hweb] at hstep
            replace hstep : some { st with
                visited := url :: st.visited,
                fetched := st.fetched ++ [url],
                errors_count := st.errors_count + 1 } = some stepped := hstep
            cases hstep
            obtain ⟨a1, a2, a3, a4⟩ := ih rest depth _ st' hrest hnd0 hsub0
            exact ⟨a1, a2, fun u hu => a3 u (List.mem_cons_of_mem _ hu),
              fun u hu => a4 u (List.mem_append_left _ hu)⟩
          | some elements =>
            rw [hweb] at hstep
            replace hstep : SeleniumDirectoryCrawler.crawl_list web maxD n
                ((SeleniumDirectoryCrawler.extract_links elements url).1.map (·.url))
                (depth + 1)
                { st with
                  visited := url :: st.visited,
                  fetched := st.fetched ++ [url],
                  dirs_found := st.dirs_found +
                    (SeleniumDirectoryCrawler.extract_links elements url).1.length,
                  files_found := st.files_found +
                    (SeleniumDirectoryCrawler.extract_links elements url).2.length } =
              some stepped := hstep
            obtain ⟨b1, b2, b3, b4⟩ := ih _ _ _ stepped hstep hnd0 hsub0
            obtain ⟨a1, a2, a3, a4⟩ := ih rest depth stepped st' hrest b1 b2
            exact ⟨a1, a2, fun u hu => a3 u (b3 u (List.mem_cons_of_mem _ hu)),
              fun u hu => a4 u (b4 u (List.mem_append_left _ hu))⟩

/-- Claim C3 — link-based no-duplicate-visitation: in both link-based
crawlers a location is inserted into the visited set before its request
is issued, and a recursive call on a visited location returns without
requesting, so the (ghost) request log of any completed run is
duplicate-free and covered by the visited set. -/
theorem C3_fetch_at_most_once :
    (∀ (web : Url → Option (List DirectoryCrawler.Anchor)) (maxD fuel : Nat) (root : Url)
       (st' : DirectoryCrawler.CrawlState),
       DirectoryCrawler.start_crawling web maxD fuel root = some st' →
       st'.fetched.Nodup ∧ (∀ u ∈ st'.fetched, u ∈ st'.visited)) ∧
    (∀ (web : PyStr → Option (List SeleniumDirectoryCrawler.Element)) (maxD fuel : Nat)
       (root : PyStr) (st' : SeleniumDirectoryCrawler.SState),
       SeleniumDirectoryCrawler.crawl_list web maxD fuel [root] 0
         SeleniumDirectoryCrawler.initSState = some st' →
       st'.fetched.Nodup ∧ (∀ u ∈ st'.fetched, u ∈ st'.visited)) := by
  constructor
  · intro web maxD fuel root st' h
    rw [DirectoryCrawler.start_crawling] at h
    obtain ⟨a1, a2, -⟩ := crawl_list_inv web maxD fuel [root] 0 _ st' h
      (by simp [DirectoryCrawler.initState]) (by simp [DirectoryCrawler.initState])
    exact ⟨a1, a2⟩
  · intro web maxD fuel root st' h
    obtain ⟨a1, a2, -⟩ := selenium_crawl_list_inv web maxD fuel [root] 0 _ st' h
      (by simp [SeleniumDirectoryCrawler.initSState])
      (by simp [SeleniumDirectoryCrawler.initSState])
    exact ⟨a1, a2⟩

/-- Witness for `C3_fetch_at_most_once`: a network on which every request
fails, crawled from a concrete root, in both models. -/
theorem C3_fetch_at_most_once_witness :
    ((⟨[Scenarios.rootUrl], [Scenarios.rootUrl], 0, 0, 1, []⟩ :
        DirectoryCrawler.CrawlState).fetched.Nodup ∧
      (∀ u ∈ (⟨[Scenarios.rootUrl], [Scenarios.rootUrl], 0, 0, 1, []⟩ :
          DirectoryCrawler.CrawlState).fetched,
        u ∈ (⟨[Scenarios.rootUrl], [Scenarios.rootUrl], 0, 0, 1, []⟩ :
          DirectoryCrawler.CrawlState).visited)) ∧
    ((⟨["r".data], ["r".data], 0, 0, 1⟩ :
        SeleniumDirectoryCrawler.SState).fetched.Nodup ∧
      (∀ u ∈ (⟨["r".data], ["r".data], 0, 0, 1⟩ :
          SeleniumDirectoryCrawler.SState).fetched,
        u ∈ (⟨["r".data], ["r".data], 0, 0, 1⟩ :
          SeleniumDirectoryCrawler.SState).visited)) :=
  ⟨C3_fetch_at_most_once.1 (fun _ => none) 5 3 Scenarios.rootUrl _ (by decide),
   C3_fetch_at_most_once.2 (fun _ => none) 5 3 "r".data _ (by decide)⟩

/-- Claim C6 — domain confinement: every node a listing page yields carries
the page's authority (a reference resolving elsewhere is never emitted),
and on a completed run every log line's node shares its page's authority
and every visited location shares the root's authority (so no
foreign-authority location is ever recursed into). -/
theorem C6_domain_confinement :
    (∀ (base : Url) (anchors : List DirectoryCrawler.Anchor)
       (item : DirectoryCrawler.Item),
       item ∈ (DirectoryCrawler.extract_links anchors base).1 ∨
       item ∈ (DirectoryCrawler.extract_links anchors base).2 →
       item.url.netloc = base.netloc) ∧
    (∀ (web : Url → Option (List DirectoryCrawler.Anchor)) (maxD fuel : Nat) (root : Url)
       (st' : DirectoryCrawler.CrawlState),
       DirectoryCrawler.start_crawling web maxD fuel root = some st' →
       (∀ e ∈ st'.events, e.url.netloc = e.page.netloc) ∧
       (∀ u ∈ st'.visited, u.netloc = root.netloc)) := by
  constructor
  · exact fun base anchors item h => extract_links_netloc base anchors item h
  · intro web maxD fuel root st' h
    rw [DirectoryCrawler.start_crawling] at h
    obtain ⟨-, -, -, -, a5, a6⟩ := crawl_list_inv web maxD fuel [root] 0 _ st' h
      (by simp [DirectoryCrawler.initState]) (by simp [DirectoryCrawler.initState])
    constructor
    · intro e he
      rcases a5 e he with h1 | h1
      · simp [DirectoryCrawler.initState] at h1
      · exact h1
    · intro u hu
      rcases a6 u hu with h1 | ⟨r, hr, he⟩
      · simp [DirectoryCrawler.initState] at h1
      · simp at hr
        rw [he, hr]

/-- Witness for `C6_domain_confinement`: the §8 page's directory entry,
and a completed failing-network run from a concrete root. -/
theorem C6_domain_confinement_witness :
    (⟨⟨"http".data, "h".data, "/A/".data, []⟩, "A/".data, "A/".data⟩ :
        DirectoryCrawler.Item).url.netloc = Scenarios.rootUrl.netloc ∧
    (∀ e ∈ (⟨[Scenarios.rootUrl], [Scenarios.rootUrl], 0, 0, 1, []⟩ :
        DirectoryCrawler.CrawlState).events, e.url.netloc = e.page.netloc) ∧
    (∀ u ∈ (⟨[Scenarios.rootUrl], [Scenarios.rootUrl], 0, 0, 1, []⟩ :
        DirectoryCrawler.CrawlState).visited, u.netloc = Scenarios.rootUrl.netloc) := by
  refine ⟨?_, ?_, ?_⟩
  · exact C6_domain_confinement.1 Scenarios.rootUrl
      [⟨"A/".data, "A/".data⟩, ⟨"readme.txt".data, "readme.txt".data⟩] _
      (Or.inl (by decide))
  · exact (C6_domain_confinement.2 (fun _ => none) 5 3 Scenarios.rootUrl _ (by decide)).1
  · exact (C6_domain_confinement.2 (fun _ => none) 5 3 Scenarios.rootUrl _ (by decide)).2

/-- Helper: every log line of the link-based traversal is emitted from a
page whose depth is strictly below the configured bound (the depth check
precedes any emission), so the event's path — one longer than its
page's — has length at most `maxD`. -/
theorem crawl_list_depth_bound (web : Url → Option (List DirectoryCrawler.Anchor))
    (maxD : Nat) :
    ∀ (fuel : Nat) (urls : List Url) (depth : Nat) (st st' : DirectoryCrawler.CrawlState),
      DirectoryCrawler.crawl_list web maxD fuel urls depth st = some st' →
      (∀ e ∈ st'.events, e ∈ st.events ∨ e.depth + 1 ≤ maxD) := by
  intro fuel
  induction fuel with
  | zero =>
    intro urls depth st st' h
    exact absurd h (by intro hc; cases hc)
  | succ n ih =>
    intro urls depth st st' h
    cases urls with
    | nil =>
      replace h : some st = some st' := h
      cases h
      exact fun e he => Or.inl he
    | cons url rest =>
      rw [DirectoryCrawler.crawl_list, Option.bind_eq_some] at h
      obtain ⟨stepped, hstep, hrest⟩ := h
      by_cases hA : maxD ≤ depth
      · rw [if_pos hA] at hstep
        cases hstep
        exact ih rest depth st st' hrest
      · rw [if_neg hA] at hstep
        by_cases hB : url ∈ st.visited
        · rw [if_pos hB] at hstep
          cases hstep
          exact ih rest depth st st' hrest
        · rw [if_neg hB] at hstep
          cases hweb : web url with
          | none =>
            rw [hweb] at hstep
            replace hstep : some { st with
                visited := url :: st.visited,
                fetched := st.fetched ++ [url],
                errors_count := st.errors_count + 1 } = some stepped := hstep
            cases hstep
            have h5 := ih rest depth _ st' hrest
            exact h5
          | some anchors =>
            rw [hweb] at hstep
            replace hstep : DirectoryCrawler.crawl_list web maxD n
                ((DirectoryCrawler.extract_links anchors url).1.map (·.url)) (depth + 1)
                ((DirectoryCrawler.extract_links anchors url).2.foldl
                  (fun s f => { s with
                    events := s.events ++ [DirectoryCrawler.LEvent.file url f.url f.name depth],
                    files_found := s.files_found + 1 })
                  ((DirectoryCrawler.extract_links anchors url).1.foldl
                    (fun s d => { s with
                      events := s.events ++ [DirectoryCrawler.LEvent.dir url d.url d.name depth],
                      dirs_found := s.dirs_found + 1 })
                    { st with
                      visited := url :: st.visited,
                      fetched := st.fetched ++ [url] })) = some stepped := hstep
            rw [foldl_dir_emit, foldl_file_emit] at hstep
            intro e he
            rcases ih rest depth stepped st' hrest e he with h1 | h1
            · rcases ih _ _ _ stepped hstep e h1 with h2 | h2
              · rcases List.mem_append.mp h2 with h3 | h3
                · rcases List.mem_append.mp h3 with h4 | h4
                  · exact Or.inl h4
                  · obtain ⟨d, hd, rfl⟩ := List.mem_map.mp h4
                    refine Or.inr ?_
                    simp only [DirectoryCrawler.LEvent.depth]
                    omega
                · obtain ⟨f, hf, rfl⟩ := List.mem_map.mp h3
                  refine Or.inr ?_
                  simp only [DirectoryCrawler.LEvent.depth]
                  omega
              · exact Or.inr h2
            · exact Or.inr h1

/-- Claim C4 — the depth bound is effective in link-based mode (every log
line's path length stays within `maxDepth`) but *not* through the
click-based entry point: `main` (line 320) constructs the crawler without
forwarding the parsed `--max-depth`, so every command line yields
`max_depth = None`; with `--max-depth 1` a three-level hierarchy still
produces discovery events with paths of length 2 and 3. -/
theorem C4_tree_cli_max_depth_dropped :
    (∀ (web : Url → Option (List DirectoryCrawler.Anchor)) (maxD fuel : Nat) (root : Url)
       (st' : DirectoryCrawler.CrawlState),
       DirectoryCrawler.start_crawling web maxD fuel root = some st' →
       ∀ e ∈ st'.events, e.depth + 1 ≤ maxD) ∧
    (∀ args : TreeCrawlerSelenium.TreeArgs,
       (TreeCrawlerSelenium.mainCrawler args).max_depth = none) ∧
    Scenarios.cliArgs.max_depth = some 1 ∧
    (TreeCrawlerSelenium.crawl_tree Scenarios.envStable
        { max_depth := (TreeCrawlerSelenium.mainCrawler Scenarios.cliArgs).max_depth,
          search_words := [], search_nec_words := [], exclusion_words := [] } 100
        [Scenarios.rowA, Scenarios.rowD] 0 [] TreeCrawlerSelenium.initTState).map
      (fun st => st.events.map (fun e => e.path.length)) = some [1, 2, 3, 3, 2, 1] := by
  refine ⟨?_, fun _ => rfl, rfl, by decide⟩
  intro web maxD fuel root st' h e he
  rw [DirectoryCrawler.start_crawling] at h
  rcases crawl_list_depth_bound web maxD fuel [root] 0 _ st' h e he with h1 | h1
  · simp [DirectoryCrawler.initState] at h1
  · exact h1

/-- Witness for `C4_tree_cli_max_depth_dropped`: the link-side depth
bound, discharged on the completed §8 run at `maxDepth = 1`. -/
theorem C4_tree_cli_max_depth_dropped_witness :
    ∀ e ∈ (⟨[Scenarios.rootUrl], [Scenarios.rootUrl], 2, 1, 0,
        [DirectoryCrawler.LEvent.dir Scenarios.rootUrl
           ⟨"http".data, "h".data, "/A/".data, []⟩ "A/".data 0,
         DirectoryCrawler.LEvent.dir Scenarios.rootUrl
           ⟨"http".data, "h".data, "/B/".data, []⟩ "B/".data 0,
         DirectoryCrawler.LEvent.file Scenarios.rootUrl
           ⟨"http".data, "h".data, "/readme.txt".data, []⟩ "readme.txt".data 0]⟩ :
        DirectoryCrawler.CrawlState).events,
      e.depth + 1 ≤ 1 :=
  C4_tree_cli_max_depth_dropped.1 Scenarios.webC5 1 10 Scenarios.rootUrl _ (by decide)
